import Mathlib

/-!
Verification development for the Smart-Emergency-Response-Predictor
geospatial resolution engine (`src/api/routing_api.py`,
`src/api/weather_api.py`, and the geocoding module generated by
`src/create_geocoding.py`).

Numeric model: Python float arithmetic is embedded as exact rational
arithmetic over `ℚ`; the Python builtin `round(x, n)` is embedded as
round-half-to-even on rationals (`pyRound`), and the builtin `int(x)`
as truncation toward zero (`pyTrunc`).  The transcendental haversine
distance (`RoutingAPI._haversine_distance`) is abstracted: functions
that consume it take the computed straight-line distance `d : ℚ` as a
parameter.  The ambient random generator is abstracted by explicit
draw functions (jitter functions for path interpolation, a seeded draw
record for the weather simulator), matching the contracts of
`random.uniform` and friends.  Network payloads are abstracted by
outcome parameters: an adapter either receives a parsed payload or one
of the failure events the Python code branches upon.
-/

namespace SERP

/-- Truncation toward zero, the semantics of the Python builtin `int()`
applied to a number. -/
def pyTrunc (q : ℚ) : ℤ := if q < 0 then -⌊-q⌋ else ⌊q⌋

/-- Round a rational to the nearest integer, ties going to the even
integer: the semantics of the Python builtin `round(x)`. -/
def roundHalfEven (q : ℚ) : ℤ :=
  if q - ⌊q⌋ < 1/2 then ⌊q⌋
  else if 1/2 < q - ⌊q⌋ then ⌊q⌋ + 1
  else if ⌊q⌋ % 2 = 0 then ⌊q⌋ else ⌊q⌋ + 1

/-- The Python builtin `round(x, n)`: round to `n` decimal places,
ties to even. -/
def pyRound (q : ℚ) (n : ℕ) : ℚ := (roundHalfEven (q * 10 ^ n) : ℚ) / 10 ^ n

theorem roundHalfEven_le (q : ℚ) : (roundHalfEven q : ℚ) ≤ q + 1/2 := by
  unfold roundHalfEven
  have hfl : (⌊q⌋ : ℚ) ≤ q := Int.floor_le q
  have hfl2 : q < (⌊q⌋ : ℚ) + 1 := Int.lt_floor_add_one q
  split
  · linarith
  · split
    · push_cast; linarith
    · split <;> push_cast <;> linarith

theorem le_roundHalfEven (q : ℚ) : q - 1/2 ≤ (roundHalfEven q : ℚ) := by
  unfold roundHalfEven
  have hfl : (⌊q⌋ : ℚ) ≤ q := Int.floor_le q
  have hfl2 : q < (⌊q⌋ : ℚ) + 1 := Int.lt_floor_add_one q
  split
  · linarith
  · split
    · push_cast; linarith
    · split <;> push_cast <;> linarith

theorem roundHalfEven_mono {x y : ℚ} (h : x ≤ y) :
    roundHalfEven x ≤ roundHalfEven y := by
  by_contra hlt
  push_neg at hlt
  have h1 : (roundHalfEven x : ℚ) ≤ x + 1/2 := roundHalfEven_le x
  have h2 : y - 1/2 ≤ (roundHalfEven y : ℚ) := le_roundHalfEven y
  have hcast : (roundHalfEven y : ℚ) + 1 ≤ (roundHalfEven x : ℚ) := by
    exact_mod_cast hlt
  have hxy : x = y := le_antisymm h (by linarith)
  rw [hxy] at hlt
  exact lt_irrefl _ hlt

theorem pyRound_mono {x y : ℚ} (n : ℕ) (h : x ≤ y) :
    pyRound x n ≤ pyRound y n := by
  unfold pyRound
  have hp : (0 : ℚ) < 10 ^ n := by positivity
  have hm : x * 10 ^ n ≤ y * 10 ^ n :=
    mul_le_mul_of_nonneg_right h (le_of_lt hp)
  have := roundHalfEven_mono hm
  have hc : (roundHalfEven (x * 10 ^ n) : ℚ) ≤ (roundHalfEven (y * 10 ^ n) : ℚ) := by
    exact_mod_cast this
  gcongr

/-- Coordinate pair `(latitude, longitude)`, as the Python code passes
`(lat, lon)` tuples around. -/
abbrev Coord := ℚ × ℚ

/-- One turn-by-turn step record, as produced by `_extract_steps`,
`_extract_openroute_steps`, and the simulated route. -/
structure Step where
  instruction : String
  distance : ℚ
  duration : ℚ
  deriving DecidableEq, Repr

/-- Normalized route record: the dictionary shape returned by
`RoutingAPI.get_optimal_route` and its helpers.  Keys that are absent
from some provider dictionaries are modeled with `Option` (or an empty
list for `warnings`); `simulated` models `route.get('simulated')`
truthiness, absent keys reading as `false`. -/
structure Route where
  distance : ℚ
  duration : ℚ
  durationInTraffic : Option ℚ
  startAddress : Option String
  endAddress : Option String
  coordinates : List Coord
  steps : List Step
  warnings : List String
  service : String
  simulated : Bool
  routeName : Option String
  deriving DecidableEq, Repr

/-- Embedding of `RoutingAPI._interpolate_path`.  The two
`random.uniform(-0.001, 0.001)` draws made for interior point `i` are
abstracted by `jitter i`; endpoints take no draw, exactly as in the
source (`if 0 < i < num_points`). -/
def interpolatePath (s e : Coord) (jitter : ℕ → ℚ × ℚ) (numPoints : ℕ) :
    List Coord :=
  (List.range (numPoints + 1)).map fun i : ℕ =>
    let t : ℚ := (i : ℚ) / (numPoints : ℚ)
    let lat := s.1 + t * (e.1 - s.1)
    let lon := s.2 + t * (e.2 - s.2)
    if 0 < i ∧ i < numPoints then (lat + (jitter i).1, lon + (jitter i).2)
    else (lat, lon)

theorem interpolatePath_length (s e : Coord) (jitter : ℕ → ℚ × ℚ)
    (numPoints : ℕ) :
    (interpolatePath s e jitter numPoints).length = numPoints + 1 := by
  simp [interpolatePath]

theorem interpolatePath_getElem (s e : Coord) (jitter : ℕ → ℚ × ℚ)
    (numPoints i : ℕ) (h : i < (interpolatePath s e jitter numPoints).length) :
    (interpolatePath s e jitter numPoints)[i] =
      if 0 < i ∧ i < numPoints then
        (s.1 + (i : ℚ) / (numPoints : ℚ) * (e.1 - s.1) + (jitter i).1,
         s.2 + (i : ℚ) / (numPoints : ℚ) * (e.2 - s.2) + (jitter i).2)
      else
        (s.1 + (i : ℚ) / (numPoints : ℚ) * (e.1 - s.1),
         s.2 + (i : ℚ) / (numPoints : ℚ) * (e.2 - s.2)) := by
  unfold interpolatePath
  rw [List.getElem_map]
  rw [List.getElem_range]

theorem interpolatePath_head (s e : Coord) (jitter : ℕ → ℚ × ℚ)
    (numPoints : ℕ) :
    (interpolatePath s e jitter numPoints).head? = some s := by
  rw [List.head?_eq_getElem?]
  have hlen : 0 < (interpolatePath s e jitter numPoints).length := by
    rw [interpolatePath_length]; omega
  rw [List.getElem?_eq_getElem hlen, interpolatePath_getElem]
  simp

theorem interpolatePath_getLast (s e : Coord) (jitter : ℕ → ℚ × ℚ)
    (numPoints : ℕ) (hn : 1 ≤ numPoints) :
    (interpolatePath s e jitter numPoints).getLast? = some e := by
  rw [List.getLast?_eq_getElem?, interpolatePath_length]
  have hlen : numPoints + 1 - 1 < (interpolatePath s e jitter numPoints).length := by
    rw [interpolatePath_length]; omega
  rw [List.getElem?_eq_getElem hlen, interpolatePath_getElem]
  have hne : (numPoints : ℚ) ≠ 0 := by exact_mod_cast Nat.pos_iff_ne_zero.mp hn
  simp [div_self hne]

/-- Embedding of `RoutingAPI._get_simulated_route`.  The parameter `d`
stands for the value of `self._haversine_distance(start_coords,
end_coords)` (a transcendental quantity abstracted as an input), and
`jitter` abstracts the interior-point randomness of
`_interpolate_path`. -/
def getSimulatedRoute (s e : Coord) (d : ℚ) (jitter : ℕ → ℚ × ℚ) : Route :=
  let roadDistance := d * (13/10)
  let durationMinutes := roadDistance / 40 * 60
  let numWaypoints := (max 5 (pyTrunc (d * 2))).toNat
  { distance := pyRound roadDistance 2
    duration := pyRound durationMinutes 1
    durationInTraffic := some (pyRound (durationMinutes * (12/10)) 1)
    startAddress := none
    endAddress := none
    coordinates := interpolatePath s e jitter numWaypoints
    steps := [{ instruction := "Head to emergency location",
                distance := roadDistance, duration := durationMinutes }]
    warnings := []
    service := "simulated"
    simulated := true
    routeName := none }

/-- One varint of `RoutingAPI._decode_polyline`: the inner `while True`
loop body.  The input is the remaining character codes; `shift` and
`acc` are the loop variables `shift` and `result`.  Python computes
`b = ord(char) - 63` (possibly negative on malformed input) and takes
`b & 0x1f`, which over arbitrary-precision two-complement integers is
`(ord(char) + 1) % 32`; the loop exits when `b < 0x20`, i.e. when
`ord(char) < 95`.  Running off the end of the string raises IndexError
in Python, modeled by `none`. -/
def decodeValue : List ℕ → ℕ → ℕ → Option (ℕ × List ℕ)
  | [], _, _ => none
  | c :: rest, shift, acc =>
    let acc2 := acc ||| (((c + 1) % 32) <<< shift)
    if c < 95 then some (acc2, rest)
    else decodeValue rest (shift + 5) acc2

theorem decodeValue_length :
    ∀ (cs : List ℕ) (shift acc v : ℕ) (rest : List ℕ),
      decodeValue cs shift acc = some (v, rest) → rest.length < cs.length := by
  intro cs
  induction cs with
  | nil => intro shift acc v rest h; simp [decodeValue] at h
  | cons c cs ih =>
    intro shift acc v rest h
    simp only [decodeValue] at h
    split at h
    · cases h; simp
    · have := ih _ _ v rest h
      simp only [List.length_cons]
      omega

/-- Zig-zag decoding step of `_decode_polyline`:
`~(result >> 1) if result & 1 else result >> 1`. -/
def unzigzag (v : ℕ) : ℤ :=
  if v % 2 = 1 then -((v : ℤ) / 2) - 1 else (v : ℤ) / 2

/-- The outer `while index < len(polyline_str)` loop of
`_decode_polyline`, accumulating integer `lat`/`lng` and collecting
the scaled pairs; `none` models an uncaught IndexError on truncated
input. -/
def decodeLoop (cs : List ℕ) (lat lng : ℤ) : Option (List (ℤ × ℤ)) :=
  match cs with
  | [] => some []
  | c :: rest =>
    match h1 : decodeValue (c :: rest) 0 0 with
    | none => none
    | some (v1, cs1) =>
      match h2 : decodeValue cs1 0 0 with
      | none => none
      | some (v2, cs2) =>
        let lat2 := lat + unzigzag v1
        let lng2 := lng + unzigzag v2
        match decodeLoop cs2 lat2 lng2 with
        | none => none
        | some ps => some ((lat2, lng2) :: ps)
termination_by cs.length
decreasing_by
  have hl1 := decodeValue_length _ _ _ _ _ h1
  have hl2 := decodeValue_length _ _ _ _ _ h2
  simp only [List.length_cons] at *
  omega

/-- Embedding of `RoutingAPI._decode_polyline`: decode a list of
character codes into `(lat, lng)` coordinate pairs scaled by `1e-5`. -/
def decodePolyline (cs : List ℕ) : Option (List Coord) :=
  (decodeLoop cs 0 0).map
    (List.map fun p => ((p.1 : ℚ) / 100000, (p.2 : ℚ) / 100000))

/-- Modelled from the spec: zig-zag encoding of the published Encoded
Polyline Algorithm Format (the value `n << 1`, inverted via `~` when
`n` is negative). -/
def zigzag (n : ℤ) : ℕ := if n < 0 then (-(2 * n) - 1).toNat else (2 * n).toNat

/-- Modelled from the spec: chunk a zig-zag value into little-endian
5-bit groups, OR-ing `0x20` onto every group except the last and
adding 63, as the published polyline encoder prescribes. -/
def encodeValue (v : ℕ) : List ℕ :=
  if v < 32 then [v + 63]
  else (v % 32 + 32 + 63) :: encodeValue (v / 32)
termination_by v
decreasing_by
  exact Nat.div_lt_self (by omega) (by omega)

/-- Modelled from the spec: encode successive points as deltas from the
previous point, latitude first. -/
def encodeRest : ℤ × ℤ → List (ℤ × ℤ) → List ℕ
  | _, [] => []
  | prev, p :: rest =>
    encodeValue (zigzag (p.1 - prev.1)) ++ encodeValue (zigzag (p.2 - prev.2))
      ++ encodeRest p rest

/-- Modelled from the spec: the standard polyline encoder over integer
coordinates already scaled by `1e5`, starting deltas from `(0, 0)`. -/
def encodePolylineSpec (pts : List (ℤ × ℤ)) : List ℕ := encodeRest (0, 0) pts

theorem lor_shiftLeft_eq_add {a b n : ℕ} (h : a < 2 ^ n) :
    a ||| (b <<< n) = a + b * 2 ^ n := by
  apply Nat.eq_of_testBit_eq
  intro j
  rw [Nat.testBit_lor, Nat.testBit_shiftLeft]
  by_cases hj : j < n
  · have hge : ¬(j ≥ n) := by omega
    simp only [ge_iff_le, hge, decide_False, Bool.false_and, Bool.or_false]
    rw [Nat.testBit_to_div_mod, Nat.testBit_to_div_mod]
    have e1 : (2 : ℕ) ^ n = 2 ^ j * 2 ^ (n - j) := by
      rw [← pow_add]; congr 1; omega
    have e2 : a + b * 2 ^ n = a + 2 ^ j * (b * 2 ^ (n - j)) := by
      rw [e1]; ring
    rw [e2, Nat.add_mul_div_left _ _ (Nat.pos_pow_of_pos j (by norm_num))]
    have e3 : n - j = (n - j - 1) + 1 := by omega
    have e4 : b * 2 ^ (n - j) % 2 = 0 := by
      rw [e3, pow_succ, ← mul_assoc]
      exact Nat.mul_mod_left _ 2
    rw [decide_eq_decide]
    omega
  · have hge : j ≥ n := by omega
    simp only [ge_iff_le, hge, decide_True, Bool.true_and]
    have hA : a.testBit j = false :=
      Nat.testBit_lt_two_pow
        (lt_of_lt_of_le h (Nat.pow_le_pow_right (by norm_num) hge))
    rw [hA, Bool.false_or]
    rw [Nat.testBit_to_div_mod, Nat.testBit_to_div_mod]
    have e1 : (2 : ℕ) ^ j = 2 ^ n * 2 ^ (j - n) := by
      rw [← pow_add]; congr 1; omega
    have e2 : a + b * 2 ^ n = a + 2 ^ n * b := by ring
    rw [e1, ← Nat.div_div_eq_div_mul, e2,
      Nat.add_mul_div_left _ _ (Nat.pos_pow_of_pos n (by norm_num)),
      Nat.div_eq_of_lt h, Nat.zero_add]

theorem decodeValue_encodeValue (v : ℕ) :
    ∀ (rest : List ℕ) (shift acc : ℕ), acc < 2 ^ shift →
      decodeValue (encodeValue v ++ rest) shift acc =
        some (acc + v * 2 ^ shift, rest) := by
  induction v using Nat.strong_induction_on with
  | _ v ih =>
    intro rest shift acc hacc
    rw [encodeValue]
    by_cases h32 : v < 32
    · rw [if_pos h32]
      simp only [List.cons_append, List.nil_append, decodeValue]
      have hc : v + 63 < 95 := by omega
      rw [if_pos hc]
      have hmod : (v + 63 + 1) % 32 = v := by omega
      rw [hmod, lor_shiftLeft_eq_add hacc]
      simp
    · rw [if_neg h32]
      simp only [List.cons_append, decodeValue]
      have hc : ¬(v % 32 + 32 + 63 < 95) := by omega
      rw [if_neg hc]
      have hmod : (v % 32 + 32 + 63 + 1) % 32 = v % 32 := by omega
      rw [hmod, lor_shiftLeft_eq_add hacc]
      have hlt : v / 32 < v := Nat.div_lt_self (by omega) (by omega)
      have hpow : (2 : ℕ) ^ (shift + 5) = 2 ^ shift * 32 := by
        rw [pow_add]; norm_num
      have hacc2 : acc + v % 32 * 2 ^ shift < 2 ^ (shift + 5) := by
        have h31 : v % 32 * 2 ^ shift ≤ 31 * 2 ^ shift :=
          Nat.mul_le_mul_right _ (by omega)
        have hsum : acc + v % 32 * 2 ^ shift < 2 ^ shift + 31 * 2 ^ shift :=
          add_lt_add_of_lt_of_le hacc h31
        calc acc + v % 32 * 2 ^ shift < 2 ^ shift + 31 * 2 ^ shift := hsum
          _ = 2 ^ (shift + 5) := by rw [hpow]; ring
      rw [List.append_eq, ih (v / 32) hlt rest (shift + 5) _ hacc2]
      have hveq : v % 32 + 32 * (v / 32) = v := by omega
      congr 2
      calc acc + v % 32 * 2 ^ shift + v / 32 * 2 ^ (shift + 5)
          = acc + (v % 32 + 32 * (v / 32)) * 2 ^ shift := by rw [hpow]; ring
        _ = acc + v * 2 ^ shift := by rw [hveq]

theorem unzigzag_zigzag (n : ℤ) : unzigzag (zigzag n) = n := by
  unfold zigzag unzigzag
  by_cases hn : n < 0
  · rw [if_pos hn]
    have hodd : (-(2 * n) - 1).toNat % 2 = 1 := by omega
    rw [if_pos hodd]
    omega
  · rw [if_neg hn]
    have heven : ¬((2 * n).toNat % 2 = 1) := by omega
    rw [if_neg heven]
    omega

theorem decodeLoop_nil (lat lng : ℤ) : decodeLoop [] lat lng = some [] := by
  rw [decodeLoop]

theorem decodeLoop_eq_some (c : ℕ) (rest : List ℕ) (v1 : ℕ) (cs1 : List ℕ)
    (v2 : ℕ) (cs2 : List ℕ) (lat lng : ℤ)
    (h1 : decodeValue (c :: rest) 0 0 = some (v1, cs1))
    (h2 : decodeValue cs1 0 0 = some (v2, cs2)) :
    decodeLoop (c :: rest) lat lng =
      (decodeLoop cs2 (lat + unzigzag v1) (lng + unzigzag v2)).map
        (fun ps => (lat + unzigzag v1, lng + unzigzag v2) :: ps) := by
  rw [decodeLoop]
  split
  · next heq => rw [h1] at heq; exact absurd heq (by simp)
  · next v1' cs1' heq =>
    rw [h1] at heq
    injection heq with heq
    injection heq with hv hcs
    subst hv; subst hcs
    split
    · next heq2 => rw [h2] at heq2; exact absurd heq2 (by simp)
    · next v2' cs2' heq2 =>
      rw [h2] at heq2
      injection heq2 with heq2
      injection heq2 with hv2 hcs2
      subst hv2; subst hcs2
      dsimp only
      split
      · next heq3 => rw [heq3]; rfl
      · next ps heq3 => rw [heq3]; rfl

theorem decodeLoop_encodeRest (pts : List (ℤ × ℤ)) :
    ∀ prev : ℤ × ℤ, decodeLoop (encodeRest prev pts) prev.1 prev.2 = some pts := by
  induction pts with
  | nil => intro prev; simp [encodeRest, decodeLoop_nil]
  | cons p pts ih =>
    intro prev
    have e : encodeRest prev (p :: pts) =
        encodeValue (zigzag (p.1 - prev.1)) ++
          (encodeValue (zigzag (p.2 - prev.2)) ++ encodeRest p pts) := by
      simp [encodeRest, List.append_assoc]
    have h1 : decodeValue (encodeRest prev (p :: pts)) 0 0 =
        some (zigzag (p.1 - prev.1),
          encodeValue (zigzag (p.2 - prev.2)) ++ encodeRest p pts) := by
      rw [e]
      have h := decodeValue_encodeValue (zigzag (p.1 - prev.1))
        (encodeValue (zigzag (p.2 - prev.2)) ++ encodeRest p pts) 0 0 (by norm_num)
      simpa using h
    have h2 : decodeValue
        (encodeValue (zigzag (p.2 - prev.2)) ++ encodeRest p pts) 0 0 =
        some (zigzag (p.2 - prev.2), encodeRest p pts) := by
      have h := decodeValue_encodeValue (zigzag (p.2 - prev.2))
        (encodeRest p pts) 0 0 (by norm_num)
      simpa using h
    cases hE : encodeRest prev (p :: pts) with
    | nil => rw [hE] at h1; simp [decodeValue] at h1
    | cons c rest =>
      rw [hE] at h1
      rw [decodeLoop_eq_some c rest _ _ _ _ prev.1 prev.2 h1 h2]
      have ez1 : prev.1 + unzigzag (zigzag (p.1 - prev.1)) = p.1 := by
        rw [unzigzag_zigzag]; ring
      have ez2 : prev.2 + unzigzag (zigzag (p.2 - prev.2)) = p.2 := by
        rw [unzigzag_zigzag]; ring
      rw [ez1, ez2, ih p]
      simp

/-- Character codes of the published Encoded Polyline Algorithm Format
reference example string. -/
def refCodes : List ℕ := "_p~iF~ps|U_ulLnnqC_mqNvxq`@".toList.map Char.toNat

theorem decodeLoop_step (cs : List ℕ) (hne : cs ≠ []) (v1 : ℕ) (cs1 : List ℕ)
    (v2 : ℕ) (cs2 : List ℕ) (lat lng : ℤ)
    (h1 : decodeValue cs 0 0 = some (v1, cs1))
    (h2 : decodeValue cs1 0 0 = some (v2, cs2)) :
    decodeLoop cs lat lng =
      (decodeLoop cs2 (lat + unzigzag v1) (lng + unzigzag v2)).map
        (fun ps => (lat + unzigzag v1, lng + unzigzag v2) :: ps) := by
  cases cs with
  | nil => exact absurd rfl hne
  | cons c rest => exact decodeLoop_eq_some c rest v1 cs1 v2 cs2 lat lng h1 h2

theorem refDecodeInt : decodeLoop refCodes 0 0 =
    some [(3850000, -12020000), (4070000, -12095000), (4325200, -12645300)] := by
  rw [decodeLoop_step refCodes (by decide) 7700000 (refCodes.drop 5) 24039999
    (refCodes.drop 10) 0 0 (by decide) (by decide)]
  rw [decodeLoop_step (refCodes.drop 10) (by decide) 440000 (refCodes.drop 14) 149999
    (refCodes.drop 18) _ _ (by decide) (by decide)]
  rw [decodeLoop_step (refCodes.drop 18) (by decide) 510400 (refCodes.drop 22) 1100599
    (refCodes.drop 27) _ _ (by decide) (by decide)]
  have hnil : refCodes.drop 27 = [] := by decide
  rw [hnil, decodeLoop_nil]
  decide

theorem decodePolyline_encode (pts : List (ℤ × ℤ)) :
    decodePolyline (encodePolylineSpec pts) =
      some (pts.map fun p => ((p.1 : ℚ) / 100000, (p.2 : ℚ) / 100000)) := by
  have h := decodeLoop_encodeRest pts (0, 0)
  simp only [encodePolylineSpec]
  rw [decodePolyline, h]
  rfl

/-- Parsed fields of one Google Directions leg, as read by
`_get_google_route`: `distance.value` in meters, `duration.value` in
seconds, the optional `duration_in_traffic.value`
(`leg.get('duration_in_traffic', {}).get('value', ...)`), and the two
address strings. -/
structure GoogleLeg where
  distanceValue : ℚ
  durationValue : ℚ
  durationInTrafficValue : Option ℚ
  startAddress : String
  endAddress : String
  deriving DecidableEq, Repr

/-- One raw Google step, consumed by `_extract_steps`. -/
structure GoogleStep where
  htmlInstructions : String
  distanceValue : ℚ
  durationValue : ℚ
  deriving DecidableEq, Repr

/-- Parsed payload of a successful Google Directions response:
`routes[0]` with its first leg, the overview polyline character codes,
warnings and steps. -/
structure GoogleRoute where
  leg : GoogleLeg
  polyline : List ℕ
  steps : List GoogleStep
  warnings : List String
  deriving DecidableEq, Repr

/-- One raw OpenRouteService step, consumed by
`_extract_openroute_steps`: distance in meters, duration in seconds. -/
structure ORSStep where
  instruction : String
  distanceValue : ℚ
  durationValue : ℚ
  deriving DecidableEq, Repr

/-- Parsed payload of a successful OpenRouteService response:
`routes[0]` with its summary, its geometry as provider-native
`(lon, lat)` pairs, and its segment steps (flattened). -/
structure ORSRoute where
  summaryDistance : ℚ
  summaryDuration : ℚ
  geometry : List (ℚ × ℚ)
  steps : List ORSStep
  deriving DecidableEq, Repr

/-- Outcome of one provider HTTP round trip, as branched upon by the
adapter: a parsed payload on HTTP 200 with a well-formed body, or one
of the failure events (non-200 status, 200 with a bad or empty body,
or a raised exception). -/
inductive Outcome (α : Type) where
  | ok (payload : α)
  | httpError
  | badPayload
  | exception
  deriving DecidableEq, Repr

/-- Embedding of `_extract_steps`: strip bold tags, convert meters to
kilometers and seconds to minutes. -/
def extractSteps (steps : List GoogleStep) : List Step :=
  steps.map fun st =>
    { instruction := (st.htmlInstructions.replace "<b>" "").replace "</b>" ""
      distance := st.distanceValue / 1000
      duration := st.durationValue / 60 }

/-- Embedding of `_extract_openroute_steps` (with the segment nesting
already flattened into one step list). -/
def extractORSSteps (steps : List ORSStep) : List Step :=
  steps.map fun st =>
    { instruction := st.instruction
      distance := st.distanceValue / 1000
      duration := st.durationValue / 60 }

/-- The `route_data` dictionary built by `_get_google_route` on the
success path, given the already-decoded polyline coordinates. -/
def googleRouteData (g : GoogleRoute) (coords : List Coord) : Route :=
  { distance := g.leg.distanceValue / 1000
    duration := g.leg.durationValue / 60
    durationInTraffic :=
      some ((g.leg.durationInTrafficValue.getD g.leg.durationValue) / 60)
    startAddress := some g.leg.startAddress
    endAddress := some g.leg.endAddress
    coordinates := coords
    steps := extractSteps g.steps
    warnings := g.warnings
    service := "google"
    simulated := false
    routeName := none }

/-- Embedding of `_get_google_route`: on any failure event, and on a
decode error raised by `_decode_polyline` (caught by the enclosing
`except`), fall back to the simulated route. -/
def getGoogleRoute (out : Outcome GoogleRoute) (s e : Coord) (d : ℚ)
    (jitter : ℕ → ℚ × ℚ) : Route :=
  match out with
  | .ok g =>
    match decodePolyline g.polyline with
    | some coords => googleRouteData g coords
    | none => getSimulatedRoute s e d jitter
  | _ => getSimulatedRoute s e d jitter

/-- The `route_data` dictionary built by `_get_openroute_route` on the
success path: geometry pairs are flipped back from `(lon, lat)` to
`(lat, lon)`, and no `duration_in_traffic` key is written. -/
def orsRouteData (o : ORSRoute) : Route :=
  { distance := o.summaryDistance / 1000
    duration := o.summaryDuration / 60
    durationInTraffic := none
    startAddress := none
    endAddress := none
    coordinates := o.geometry.map fun c => (c.2, c.1)
    steps := extractORSSteps o.steps
    warnings := []
    service := "openroute"
    simulated := false
    routeName := none }

/-- Embedding of `_get_openroute_route`: any failure event falls back
to the simulated route. -/
def getORSRoute (out : Outcome ORSRoute) (s e : Coord) (d : ℚ)
    (jitter : ℕ → ℚ × ℚ) : Route :=
  match out with
  | .ok o => orsRouteData o
  | _ => getSimulatedRoute s e d jitter

/-- Configuration state of `RoutingAPI.__init__`: the selected service
string and the `enabled` flag (key present and not a placeholder
sentinel). -/
structure RoutingConfig where
  service : String
  enabled : Bool
  deriving DecidableEq, Repr

/-- Embedding of `RoutingAPI.get_optimal_route`.  The network is
abstracted: `gout` and `oout` are the outcomes the Google and
OpenRouteService adapters would observe, `d` is the haversine distance
of `(s, e)` and `jitter` the interpolation randomness used by the
simulated fallback. -/
def getOptimalRoute (cfg : RoutingConfig) (gout : Outcome GoogleRoute)
    (oout : Outcome ORSRoute) (d : ℚ) (jitter : ℕ → ℚ × ℚ)
    (s e : Coord) : Route :=
  if cfg.enabled = false then getSimulatedRoute s e d jitter
  else if cfg.service = "google" then getGoogleRoute gout s e d jitter
  else if cfg.service = "openroute" then getORSRoute oout s e d jitter
  else getSimulatedRoute s e d jitter

/-- One synthetic alternative of `get_multiple_routes`: a copy of the
primary route with `distance *= (1 + i*0.1)`, `duration *= (1 + i*0.15)`
and a `route_name` key added. -/
def altRoute (primary : Route) (i : ℕ) : Route :=
  { primary with
      distance := primary.distance * (1 + (i : ℚ) * (1/10))
      duration := primary.duration * (1 + (i : ℚ) * (15/100))
      routeName := some ("Alternative " ++ toString i) }

/-- Embedding of `RoutingAPI.get_multiple_routes`: the primary route is
always appended (it is always truthy); synthetic alternatives indexed
`i = 1 .. numAlternatives - 1` (Python `range(1, num_alternatives)`)
are added only when the primary is simulated. -/
def getMultipleRoutes (cfg : RoutingConfig) (gout : Outcome GoogleRoute)
    (oout : Outcome ORSRoute) (d : ℚ) (jitter : ℕ → ℚ × ℚ)
    (s e : Coord) (numAlternatives : ℕ) : List Route :=
  let primary := getOptimalRoute cfg gout oout d jitter s e
  if primary.simulated then
    primary :: (List.range' 1 (numAlternatives - 1)).map (altRoute primary)
  else [primary]

/-- The dictionary returned by `RoutingAPI.calculate_eta`; the
human-formatted timestamp string is omitted from the model (pure
formatting of `eta`).  Times are rational minute counts;
`currentTime` models the `current_time` argument (defaulted to
`datetime.now()` by the source). -/
structure EtaInfo where
  eta : ℚ
  durationMinutes : ℚ
  distanceKm : ℚ
  deriving DecidableEq, Repr

/-- Embedding of `RoutingAPI.calculate_eta`: the traffic-adjusted
duration is preferred when the key is present (`route_data.get(
'duration_in_traffic', route_data.get('duration', 0))`; every modeled
route dictionary carries a `duration` key). -/
def calculateEta (route : Route) (currentTime : ℚ) : EtaInfo :=
  let duration := route.durationInTraffic.getD route.duration
  { eta := currentTime + duration
    durationMinutes := duration
    distanceKm := route.distance }

/-- The nearest-responder dictionary assembled by
`find_nearest_responder`. -/
structure NearestInfo where
  responderId : ℕ
  coordinates : Coord
  distance : ℚ
  duration : ℚ
  route : Route
  eta : EtaInfo
  deriving DecidableEq, Repr

/-- The `for i, responder_coords in enumerate(...)` loop of
`find_nearest_responder`.  `getRoute r` abstracts
`self.get_optimal_route(r, emergency_coords)`; the second component of
the result is the ordered list of coordinates the loop requested a
route for.  The tracked state is `nearest`/`best_route` (`none` models
`nearest = None`, in which case `min_distance` is infinite and any
route wins; otherwise `min_distance` equals the stored route
distance). -/
def findLoop (getRoute : Coord → Route) :
    List Coord → ℕ → Option (ℕ × Coord × Route) →
      Option (ℕ × Coord × Route) × List Coord
  | [], _, best => (best, [])
  | r :: rest, i, best =>
    let route := getRoute r
    let best2 := match best with
      | none => some (i, r, route)
      | some b => if route.distance < b.2.2.distance then some (i, r, route)
                  else some b
    let out := findLoop getRoute rest (i + 1) best2
    (out.1, r :: out.2)

/-- Embedding of `RoutingAPI.find_nearest_responder`.  `getRoute r e`
abstracts `self.get_optimal_route(r, e)` (full resolution, including
any fallback); `now` models the implicit `datetime.now()` of the ETA
computation.  Returns the nearest-responder record (or `none` for an
empty responder list) paired with the ordered list of coordinates for
which a route was requested. -/
def findNearestResponder (getRoute : Coord → Coord → Route)
    (emergency : Coord) (now : ℚ) (responders : List Coord) :
    Option NearestInfo × List Coord :=
  let out := findLoop (fun r => getRoute r emergency) responders 0 none
  (out.1.map fun b =>
    { responderId := b.1
      coordinates := b.2.1
      distance := b.2.2.distance
      duration := b.2.2.duration
      route := b.2.2
      eta := calculateEta b.2.2 now },
   out.2)

/-- Confidence field of a geocode result: Google and Nominatim report
labels, OpenCage reports a numeric scale. -/
inductive GeoConfidence where
  | label (s : String)
  | score (n : ℤ)
  deriving DecidableEq, Repr

/-- Normalized geocode result dictionary built by the
`GeocodingAPI._geocode_*` helpers; `provider` is the tag written by the
fallback loop on success. -/
structure GeoResult where
  latitude : ℚ
  longitude : ℚ
  formattedAddress : String
  city : String
  country : String
  countryCode : String
  confidence : GeoConfidence
  provider : Option String
  deriving DecidableEq, Repr

/-- Outcome of one geocoding provider attempt, as observed by the
`geocode` loop: a returned dictionary (truthy), a returned `None`
(provider answered but found nothing), or a raised exception (caught
by the loop, which logs and continues). -/
inductive GeoAttempt where
  | found (r : GeoResult)
  | notFound
  | raised
  deriving DecidableEq, Repr

/-- The `for provider_name, geocode_func in providers` loop of
`GeocodingAPI.geocode`: the first attempt returning a truthy result is
tagged with its provider name and returned; `notFound` and `raised`
both advance to the next entry; exhaustion returns `None`. -/
def geocodeLoop : List (String × GeoAttempt) → Option GeoResult
  | [] => none
  | (name, att) :: rest =>
    match att with
    | .found r => some { r with provider := some name }
    | _ => geocodeLoop rest

/-- Embedding of `GeocodingAPI.geocode`: the provider list is built
from the enabled flags (`google`, `opencage`; Nominatim is always
enabled), then walked by `geocodeLoop`.  `ag`, `ao`, `an` are the
outcomes each provider attempt would produce for this query. -/
def geocode (googleEnabled opencageEnabled : Bool)
    (ag ao an : GeoAttempt) : Option GeoResult :=
  geocodeLoop
    ((if googleEnabled then [("google", ag)] else []) ++
     (if opencageEnabled then [("opencage", ao)] else []) ++
     [("nominatim", an)])

/-- Values drawn from the seeded `random` generator by
`WeatherAPI._get_simulated_weather`, in call order.  Python `random`
is deterministic given its seed, so a draw record is a function of the
seed alone; the record abstracts the concrete Mersenne-Twister
stream. -/
structure WeatherDraws where
  tempVariation : ℚ
  condition : String
  precipRain : ℚ
  precipDrizzle : ℚ
  precipThunder : ℚ
  feelsDelta : ℚ
  humidity : ℤ
  pressure : ℤ
  windSpeed : ℚ
  windDirection : ℤ
  cloudiness : ℤ
  visibility : ℤ
  deriving DecidableEq, Repr

/-- The simulated weather dictionary. `timestamp` models
`datetime.now().isoformat()` as the evaluation time in seconds. -/
structure WeatherData where
  temperature : ℚ
  feelsLike : ℚ
  humidity : ℤ
  pressure : ℤ
  windSpeed : ℚ
  windDirection : ℤ
  cloudiness : ℤ
  precipitation : ℚ
  weatherMain : String
  weatherDescription : String
  visibility : ℤ
  timestamp : ℕ
  simulated : Bool
  deriving DecidableEq, Repr

/-- The location part of the weather seed:
`int((latitude + 90) * 1000 + (longitude + 180) * 1000)`. -/
def weatherSeed (lat lon : ℚ) : ℤ := pyTrunc ((lat + 90) * 1000 + (lon + 180) * 1000)

/-- Hour bucket of an evaluation time in seconds:
`int(datetime.now().timestamp()) // 3600`. -/
def hourBucket (t : ℕ) : ℕ := t / 3600

/-- The full seed passed to `random.seed`:
`seed + int(datetime.now().timestamp()) // 3600`. -/
def seedAt (lat lon : ℚ) (t : ℕ) : ℤ := weatherSeed lat lon + (hourBucket t : ℤ)

/-- Embedding of `WeatherAPI._get_simulated_weather`.  `draw` maps a
seed to the values the seeded generator would produce (one record per
seed, reflecting that `random` is deterministic after `random.seed`);
`t` is the evaluation time in seconds. -/
def getSimulatedWeather (draw : ℤ → WeatherDraws) (lat lon : ℚ) (t : ℕ) :
    WeatherData :=
  let dr := draw (seedAt lat lon t)
  let baseTemp : ℚ := 25 - |lat| * (4/10)
  let temperature := baseTemp + dr.tempVariation
  let precipitation : ℚ :=
    if dr.condition = "Rain" then dr.precipRain
    else if dr.condition = "Drizzle" then dr.precipDrizzle
    else if dr.condition = "Thunderstorm" then dr.precipThunder
    else 0
  { temperature := pyRound temperature 1
    feelsLike := pyRound (temperature + dr.feelsDelta) 1
    humidity := dr.humidity
    pressure := dr.pressure
    windSpeed := pyRound dr.windSpeed 1
    windDirection := dr.windDirection
    cloudiness := dr.cloudiness
    precipitation := pyRound precipitation 1
    weatherMain := dr.condition
    weatherDescription := dr.condition.toLower
    visibility := dr.visibility
    timestamp := t
    simulated := true }

theorem forall₂_map_left {α β : Type} (R : β → α → Prop) (f : α → β) :
    ∀ l : List α, (∀ x ∈ l, R (f x) x) → List.Forall₂ R (l.map f) l := by
  intro l
  induction l with
  | nil => intro _; simp
  | cons x l ih =>
    intro h
    simp only [List.map_cons]
    exact List.Forall₂.cons (h x (by simp))
      (ih fun y hy => h y (List.mem_cons_of_mem _ hy))

/-- C10: `_decode_polyline` applied to the empty string terminates
normally with the empty coordinate list (the outer `while` loop body
is never entered). -/
theorem C10_decodePolyline_empty :
    decodePolyline (("" : String).toList.map Char.toNat) = some [] := by
  rw [show (("" : String).toList.map Char.toNat) = ([] : List ℕ) from rfl]
  rw [decodePolyline, decodeLoop_nil]
  rfl

/-- C2: decoding a compliant encoding of any coordinate sequence
(grid-rounded to 1e-5 as the standard encoder prescribes) succeeds and
reproduces the sequence within 1e-5 tolerance in each component, and
the published reference string decodes to exactly
(38.5, -120.2), (40.7, -120.95), (43.252, -126.453). -/
theorem C2_decodePolyline_roundtrip :
    (∀ qpts : List (ℚ × ℚ),
      decodePolyline (encodePolylineSpec (qpts.map fun p =>
          (roundHalfEven (p.1 * 100000), roundHalfEven (p.2 * 100000)))) =
        some (qpts.map fun p =>
          ((roundHalfEven (p.1 * 100000) : ℚ) / 100000,
           (roundHalfEven (p.2 * 100000) : ℚ) / 100000)) ∧
      List.Forall₂ (fun (dp : Coord) (p : ℚ × ℚ) =>
          |dp.1 - p.1| ≤ 1/100000 ∧ |dp.2 - p.2| ≤ 1/100000)
        (qpts.map fun p =>
          ((roundHalfEven (p.1 * 100000) : ℚ) / 100000,
           (roundHalfEven (p.2 * 100000) : ℚ) / 100000)) qpts) ∧
    decodePolyline refCodes =
      some [((38.5 : ℚ), (-120.2 : ℚ)), ((40.7 : ℚ), (-120.95 : ℚ)),
            ((43.252 : ℚ), (-126.453 : ℚ))] := by
  constructor
  · intro qpts
    constructor
    · rw [decodePolyline_encode, List.map_map]
      rfl
    · apply forall₂_map_left
      intro p _
      have hb1 := roundHalfEven_le (p.1 * 100000)
      have hb2 := le_roundHalfEven (p.1 * 100000)
      have hb3 := roundHalfEven_le (p.2 * 100000)
      have hb4 := le_roundHalfEven (p.2 * 100000)
      constructor
      · rw [abs_le]; constructor <;> [linarith; linarith]
      · rw [abs_le]; constructor <;> [linarith; linarith]
  · rw [decodePolyline, refDecodeInt]
    simp only [Option.map_some', List.map_cons, List.map_nil]
    norm_num

/-- C9: `find_nearest_responder` with an empty responder list returns
`None` without requesting any route, for every emergency coordinate. -/
theorem C9_findNearestResponder_empty (getRoute : Coord → Coord → Route)
    (emergency : Coord) (now : ℚ) :
    findNearestResponder getRoute emergency now [] = (none, []) := rfl

/-- Concrete draw record used for weather witnesses. -/
def constDraws : WeatherDraws :=
  { tempVariation := 0, condition := "Clear", precipRain := 0
    precipDrizzle := 0, precipThunder := 0, feelsDelta := 0
    humidity := 50, pressure := 1000, windSpeed := 0, windDirection := 0
    cloudiness := 0, visibility := 10000 }

/-- C8 counterexample: evaluation times 0 and 1 fall in the same hour
bucket, yet the two returned records differ, because the dictionary
contains `timestamp: datetime.now().isoformat()`, which records the
call instant. -/
theorem C8_counterexample :
    hourBucket 0 = hourBucket 1 ∧
    getSimulatedWeather (fun _ => constDraws) 0 0 0 ≠
      getSimulatedWeather (fun _ => constDraws) 0 0 1 := by
  constructor
  · rfl
  · intro h
    have ht := congrArg WeatherData.timestamp h
    simp [getSimulatedWeather] at ht

/-- C8 amended: two simulated-weather calls at the same location whose
evaluation times share an hour bucket receive the same seed and agree
on every field except the `timestamp` field (which records the call
instant); calls in different hour buckets are seeded differently. -/
theorem C8_amended_weather_seed :
    (∀ (draw : ℤ → WeatherDraws) (lat lon : ℚ) (t t2 : ℕ),
      hourBucket t = hourBucket t2 →
        ({ getSimulatedWeather draw lat lon t with timestamp := 0 } =
          { getSimulatedWeather draw lat lon t2 with timestamp := 0 }) ∧
        seedAt lat lon t = seedAt lat lon t2) ∧
    (∀ (lat lon : ℚ) (t t2 : ℕ),
      hourBucket t ≠ hourBucket t2 → seedAt lat lon t ≠ seedAt lat lon t2) := by
  constructor
  · intro draw lat lon t t2 hb
    have hs : seedAt lat lon t = seedAt lat lon t2 := by
      unfold seedAt; rw [hb]
    refine ⟨?_, hs⟩
    unfold getSimulatedWeather
    rw [hs]
  · intro lat lon t t2 hb h
    apply hb
    unfold seedAt at h
    omega

/-- C8 witness: concrete instance of the amended claim; times 0 and
3599 share hour bucket 0 and agree off-timestamp, while buckets of 0
and 3600 differ and are seeded differently. -/
theorem C8_witness :
    ({ getSimulatedWeather (fun _ => constDraws) 0 0 0 with timestamp := 0 } =
      { getSimulatedWeather (fun _ => constDraws) 0 0 3599 with timestamp := 0 }) ∧
    seedAt 0 0 0 ≠ seedAt 0 0 3600 :=
  ⟨(C8_amended_weather_seed.1 (fun _ => constDraws) 0 0 0 3599 (by decide)).1,
   C8_amended_weather_seed.2 0 0 0 3600 (by decide)⟩

/-- C3 counterexample: for a straight-line distance of 2.9 km the code
computes `max(5, int(2.9 * 2)) = 5` segments (Python `int()`
truncates), so the path has 6 points, whereas the claim with rounding
to the nearest integer predicts `max(5, round(5.8)) + 1 = 7` points;
the reported duration is also the claimed raw quotient rounded to one
decimal, not the raw quotient itself. -/
theorem C3_counterexample :
    (getSimulatedRoute ((0 : ℚ), (0 : ℚ)) (1, 1) (29/10)
        (fun _ => (0, 0))).coordinates.length = 6 ∧
    (max 5 (roundHalfEven ((29/10) * 2))).toNat + 1 = 7 ∧
    (getSimulatedRoute ((0 : ℚ), (0 : ℚ)) (1, 1) (29/10)
        (fun _ => (0, 0))).duration ≠ (29/10) * (13/10) / 40 * 60 := by
  have htr : pyTrunc ((29/10 : ℚ) * 2) = 5 := by
    rw [pyTrunc, if_neg (by norm_num)]
    norm_num
  refine ⟨?_, ?_, ?_⟩
  · simp only [getSimulatedRoute, interpolatePath_length, htr]
    rfl
  · have hfl : ⌊((29:ℚ)/10 * 2)⌋ = 5 := by norm_num
    have hr : roundHalfEven ((29/10 : ℚ) * 2) = 6 := by
      unfold roundHalfEven
      rw [hfl]
      norm_num
    rw [hr]
    decide
  · simp only [getSimulatedRoute]
    have hfl : ⌊((29:ℚ)/10 * (13/10) / 40 * 60 * 10 ^ 1)⌋ = 56 := by norm_num
    unfold pyRound roundHalfEven
    rw [hfl]
    norm_num

/-- C3 amended: the simulated route reports
`distance = round(1.3 d, 2)`, `duration = round(1.3 d / 40 * 60, 1)`,
`duration_in_traffic = round((1.3 d / 40 * 60) * 1.2, 1)`, and a path
of `max(5, int(2 d)) + 1` interpolated points (truncation, not
rounding to nearest) beginning exactly at the start coordinate and
ending exactly at the end coordinate, where `d` is the haversine
straight-line distance. -/
theorem C3_amended_simulated_route (s e : Coord) (d : ℚ)
    (jitter : ℕ → ℚ × ℚ) :
    (getSimulatedRoute s e d jitter).distance = pyRound (d * (13/10)) 2 ∧
    (getSimulatedRoute s e d jitter).duration =
      pyRound (d * (13/10) / 40 * 60) 1 ∧
    (getSimulatedRoute s e d jitter).durationInTraffic =
      some (pyRound (d * (13/10) / 40 * 60 * (12/10)) 1) ∧
    (getSimulatedRoute s e d jitter).coordinates =
      interpolatePath s e jitter (max 5 (pyTrunc (d * 2))).toNat ∧
    (getSimulatedRoute s e d jitter).coordinates.length =
      (max 5 (pyTrunc (d * 2))).toNat + 1 ∧
    (getSimulatedRoute s e d jitter).coordinates.head? = some s ∧
    (getSimulatedRoute s e d jitter).coordinates.getLast? = some e := by
  have hge : 1 ≤ (max 5 (pyTrunc (d * 2))).toNat := by
    have h5 : (5 : ℤ) ≤ max 5 (pyTrunc (d * 2)) := le_max_left _ _
    have := Int.toNat_le_toNat h5
    omega
  refine ⟨rfl, rfl, rfl, rfl, ?_, ?_, ?_⟩
  · simp only [getSimulatedRoute, interpolatePath_length]
  · simp only [getSimulatedRoute, interpolatePath_head]
  · simp only [getSimulatedRoute, interpolatePath_getLast _ _ _ _ hge]

/-- C4: `interpolatePath(a, b, n)` for `n ≥ 1` returns exactly `n + 1`
points whose first is exactly `a` and last exactly `b`, and whose
interior points deviate from exact linear interpolation by at most
0.001 degrees in each component, given that every jitter draw lies in
`[-0.001, 0.001]` (the contract of `random.uniform(-0.001, 0.001)`). -/
theorem C4_interpolatePath (s e : Coord) (n : ℕ) (jitter : ℕ → ℚ × ℚ)
    (hn : 1 ≤ n)
    (hjit : ∀ i, |(jitter i).1| ≤ 1/1000 ∧ |(jitter i).2| ≤ 1/1000) :
    (interpolatePath s e jitter n).length = n + 1 ∧
    (interpolatePath s e jitter n).head? = some s ∧
    (interpolatePath s e jitter n).getLast? = some e ∧
    ∀ i (h : i < (interpolatePath s e jitter n).length), 0 < i → i < n →
      |((interpolatePath s e jitter n).get ⟨i, h⟩).1 -
        (s.1 + (i : ℚ) / (n : ℚ) * (e.1 - s.1))| ≤ 1/1000 ∧
      |((interpolatePath s e jitter n).get ⟨i, h⟩).2 -
        (s.2 + (i : ℚ) / (n : ℚ) * (e.2 - s.2))| ≤ 1/1000 := by
  refine ⟨interpolatePath_length s e jitter n, interpolatePath_head s e jitter n,
    interpolatePath_getLast s e jitter n hn, ?_⟩
  intro i h h0 hn2
  rw [List.get_eq_getElem, interpolatePath_getElem s e jitter n i h,
    if_pos (And.intro h0 hn2)]
  constructor
  · simpa [add_sub_cancel_left] using (hjit i).1
  · simpa [add_sub_cancel_left] using (hjit i).2

/-- C4 witness: concrete instance with `n = 2` and maximal jitter. -/
theorem C4_witness :
    (interpolatePath ((0 : ℚ), (0 : ℚ)) (2, 2)
      (fun _ => (1/1000, 1/1000)) 2).length = 3 :=
  (C4_interpolatePath (0, 0) (2, 2) 2 (fun _ => (1/1000, 1/1000))
    (by norm_num)
    (fun _ => ⟨by rw [abs_le]; constructor <;> norm_num,
               by rw [abs_le]; constructor <;> norm_num⟩)).1

/-- C5: for `n ≥ 1`, when the primary resolved route is simulated,
`get_multiple_routes(n)` returns exactly `n` routes whose head is the
primary and whose element `i ≥ 1` scales the primary distance by
`1 + 0.1 i` and the primary duration by `1 + 0.15 i`; when the primary
is not simulated, the returned list is exactly the singleton primary. -/
theorem C5_getMultipleRoutes (cfg : RoutingConfig)
    (gout : Outcome GoogleRoute) (oout : Outcome ORSRoute) (d : ℚ)
    (jitter : ℕ → ℚ × ℚ) (s e : Coord) (n : ℕ) (hn : 1 ≤ n) :
    ((getOptimalRoute cfg gout oout d jitter s e).simulated = true →
      (getMultipleRoutes cfg gout oout d jitter s e n).length = n ∧
      (getMultipleRoutes cfg gout oout d jitter s e n).head? =
        some (getOptimalRoute cfg gout oout d jitter s e) ∧
      ∀ i (h : i < (getMultipleRoutes cfg gout oout d jitter s e n).length),
        1 ≤ i →
        ((getMultipleRoutes cfg gout oout d jitter s e n).get ⟨i, h⟩).distance =
          (getOptimalRoute cfg gout oout d jitter s e).distance *
            (1 + (i : ℚ) * (1/10)) ∧
        ((getMultipleRoutes cfg gout oout d jitter s e n).get ⟨i, h⟩).duration =
          (getOptimalRoute cfg gout oout d jitter s e).duration *
            (1 + (i : ℚ) * (15/100))) ∧
    ((getOptimalRoute cfg gout oout d jitter s e).simulated = false →
      getMultipleRoutes cfg gout oout d jitter s e n =
        [getOptimalRoute cfg gout oout d jitter s e]) := by
  constructor
  · intro hsim
    have hM : getMultipleRoutes cfg gout oout d jitter s e n =
        getOptimalRoute cfg gout oout d jitter s e ::
          (List.range' 1 (n - 1)).map
            (altRoute (getOptimalRoute cfg gout oout d jitter s e)) := by
      simp only [getMultipleRoutes, hsim, if_pos]
    refine ⟨?_, ?_, ?_⟩
    · rw [hM, List.length_cons, List.length_map, List.length_range']
      omega
    · rw [hM]
      rfl
    · intro i h h1
      obtain ⟨j, rfl⟩ : ∃ j, i = j + 1 := ⟨i - 1, by omega⟩
      rw [List.get_eq_getElem]
      simp only [hM] at h ⊢
      rw [List.getElem_cons_succ, List.getElem_map, List.getElem_range']
      have hcast : ((1 + 1 * j : ℕ) : ℚ) = ((j + 1 : ℕ) : ℚ) := by push_cast; ring
      unfold altRoute
      constructor
      · simp only [hcast]
      · simp only [hcast]
  · intro hsim
    simp only [getMultipleRoutes, hsim]
    rfl

/-- C5 witness: with routing disabled the primary route is simulated
and three routes come back. -/
theorem C5_witness :
    (getMultipleRoutes ⟨"google", false⟩ Outcome.exception Outcome.exception 1
      (fun _ => (0, 0)) ((0 : ℚ), (0 : ℚ)) (1, 1) 3).length = 3 :=
  ((C5_getMultipleRoutes ⟨"google", false⟩ Outcome.exception Outcome.exception 1
    (fun _ => (0, 0)) (0, 0) (1, 1) 3 (by norm_num)).1 rfl).1

/-- Google payload whose provider-reported traffic duration is below
the plain duration (300 s of traffic time against 600 s). -/
def badTrafficGoogle : GoogleRoute :=
  { leg := { distanceValue := 1000, durationValue := 600
             durationInTrafficValue := some 300
             startAddress := "A", endAddress := "B" }
    polyline := [], steps := [], warnings := [] }

/-- C7 counterexample: a Google response carrying
`duration_in_traffic = 300 s` with `duration = 600 s` is passed
through unchecked, producing a normalized route with traffic duration
5 min strictly below the plain 10 min duration. -/
theorem C7_counterexample :
    (getOptimalRoute ⟨"google", true⟩ (Outcome.ok badTrafficGoogle)
        Outcome.exception 1 (fun _ => (0, 0)) ((0 : ℚ), (0 : ℚ))
        (1, 1)).durationInTraffic = some 5 ∧
    (getOptimalRoute ⟨"google", true⟩ (Outcome.ok badTrafficGoogle)
        Outcome.exception 1 (fun _ => (0, 0)) ((0 : ℚ), (0 : ℚ))
        (1, 1)).duration = 10 ∧
    ¬((10 : ℚ) ≤ 5) := by
  have hdec : decodePolyline badTrafficGoogle.polyline = some [] := by
    rw [show badTrafficGoogle.polyline = ([] : List ℕ) from rfl,
      decodePolyline, decodeLoop_nil]
    rfl
  have hroute : getOptimalRoute ⟨"google", true⟩ (Outcome.ok badTrafficGoogle)
      Outcome.exception 1 (fun _ => (0, 0)) ((0 : ℚ), (0 : ℚ)) (1, 1) =
      googleRouteData badTrafficGoogle [] := by
    unfold getOptimalRoute
    rw [if_neg (by decide), if_pos (by decide)]
    unfold getGoogleRoute
    dsimp only
    rw [hdec]
  rw [hroute]
  refine ⟨?_, ?_, by norm_num⟩
  · simp only [googleRouteData]
    norm_num [badTrafficGoogle]
  · simp only [googleRouteData]
    norm_num [badTrafficGoogle]

/-- C7 amended: the traffic-versus-plain-duration invariant holds for
every simulated route (20 percent uplift before monotone rounding) and
for Google routes whose payload omits the traffic figure (it defaults
to the plain duration) or reports one at least the plain duration;
OpenRouteService routes carry no traffic field at all.  A
provider-supplied traffic figure below the plain duration is passed
through unchecked, so the invariant is not enforced in that case. -/
theorem C7_amended_traffic_invariant :
    (∀ (s e : Coord) (d : ℚ) (jitter : ℕ → ℚ × ℚ) (t : ℚ), 0 ≤ d →
      (getSimulatedRoute s e d jitter).durationInTraffic = some t →
      (getSimulatedRoute s e d jitter).duration ≤ t) ∧
    (∀ (g : GoogleRoute) (coords : List Coord),
      (g.leg.durationInTrafficValue = none →
        (googleRouteData g coords).durationInTraffic =
          some ((googleRouteData g coords).duration)) ∧
      (∀ v : ℚ, g.leg.durationInTrafficValue = some v →
        g.leg.durationValue ≤ v →
        ∀ t : ℚ, (googleRouteData g coords).durationInTraffic = some t →
          (googleRouteData g coords).duration ≤ t)) ∧
    (∀ o : ORSRoute, (orsRouteData o).durationInTraffic = none) := by
  refine ⟨?_, ?_, fun _ => rfl⟩
  · intro s e d jitter t hd ht
    simp only [getSimulatedRoute, Option.some.injEq] at ht
    subst ht
    show pyRound (d * (13/10) / 40 * 60) 1 ≤ _
    apply pyRound_mono
    nlinarith
  · intro g coords
    constructor
    · intro hnone
      simp [googleRouteData, hnone]
    · intro v hv hle t ht
      simp only [googleRouteData, hv, Option.getD_some, Option.some.injEq] at ht
      subst ht
      show g.leg.durationValue / 60 ≤ v / 60
      gcongr

/-- C7 witness: concrete instance of the amended invariant on a
simulated route with `d = 1`. -/
theorem C7_witness :
    (getSimulatedRoute ((0 : ℚ), (0 : ℚ)) (1, 1) 1
        (fun _ => (0, 0))).duration ≤
      ((getSimulatedRoute ((0 : ℚ), (0 : ℚ)) (1, 1) 1
        (fun _ => (0, 0))).durationInTraffic.getD 0) := by
  have h := C7_amended_traffic_invariant.1 (0, 0) (1, 1) 1 (fun _ => (0, 0))
    (pyRound (1 * (13/10) / 40 * 60 * (12/10)) 1) (by norm_num) rfl
  simpa [getSimulatedRoute] using h

theorem geocodeLoop_none :
    ∀ l : List (String × GeoAttempt),
      (∀ p ∈ l, ∀ r, p.2 ≠ GeoAttempt.found r) → geocodeLoop l = none := by
  intro l
  induction l with
  | nil => intro _; rfl
  | cons p rest ih =>
    intro h
    obtain ⟨name, att⟩ := p
    cases att with
    | found r => exact absurd rfl (h (name, .found r) (by simp) r)
    | notFound => exact ih fun q hq => h q (List.mem_cons_of_mem _ hq)
    | raised => exact ih fun q hq => h q (List.mem_cons_of_mem _ hq)

theorem geocodeLoop_first :
    ∀ (l1 : List (String × GeoAttempt)) (name : String) (r : GeoResult)
      (l2 : List (String × GeoAttempt)),
      (∀ p ∈ l1, ∀ r2, p.2 ≠ GeoAttempt.found r2) →
      geocodeLoop (l1 ++ (name, GeoAttempt.found r) :: l2) =
        some { r with provider := some name } := by
  intro l1
  induction l1 with
  | nil => intro name r l2 _; rfl
  | cons p rest ih =>
    intro name r l2 h
    obtain ⟨nm, att⟩ := p
    cases att with
    | found r2 => exact absurd rfl (h (nm, .found r2) (by simp) r2)
    | notFound =>
      simpa [geocodeLoop] using
        ih name r l2 fun q hq => h q (List.mem_cons_of_mem _ hq)
    | raised =>
      simpa [geocodeLoop] using
        ih name r l2 fun q hq => h q (List.mem_cons_of_mem _ hq)

/-- C1 counterexample: with both keyed providers enabled, a raised
exception from Google and OpenCage and an empty Nominatim answer make
`geocode` return `None` to the caller: geocoding has no simulated
fallback, so a hard-failure return path exists. -/
theorem C1_counterexample :
    geocode true true GeoAttempt.raised GeoAttempt.raised GeoAttempt.notFound =
      none := rfl

/-- C1 amended: for routing, every adapter failure event and every
disabled configuration is recovered by falling back to the simulation
engine (whose results carry `simulated = true`), and a provider
success is returned normalized under that provider tag with earlier
failures invisible; for geocoding, each provider failure advances the
loop to the next provider and the first success is returned tagged
with its provider name, but when every enabled provider fails the
caller receives `None` — geocoding has no simulated fallback, so the
no-hard-failure guarantee holds for routing only. -/
theorem C1_amended_fallback :
    (∀ (gout : Outcome GoogleRoute) (oout : Outcome ORSRoute) (d : ℚ)
        (jitter : ℕ → ℚ × ℚ) (s e : Coord) (cfg : RoutingConfig),
      (getSimulatedRoute s e d jitter).simulated = true ∧
      (cfg.enabled = false →
        getOptimalRoute cfg gout oout d jitter s e =
          getSimulatedRoute s e d jitter) ∧
      (cfg.service = "google" → cfg.enabled = true →
        (∀ g, gout = .ok g → decodePolyline g.polyline = none) →
        getOptimalRoute cfg gout oout d jitter s e =
          getSimulatedRoute s e d jitter) ∧
      (cfg.service = "google" → cfg.enabled = true →
        ∀ g coords, gout = .ok g → decodePolyline g.polyline = some coords →
          getOptimalRoute cfg gout oout d jitter s e =
            googleRouteData g coords) ∧
      (cfg.service = "openroute" → cfg.enabled = true →
        (∀ o, oout ≠ .ok o) →
        getOptimalRoute cfg gout oout d jitter s e =
          getSimulatedRoute s e d jitter) ∧
      (cfg.service = "openroute" → cfg.enabled = true →
        ∀ o, oout = .ok o →
          getOptimalRoute cfg gout oout d jitter s e = orsRouteData o)) ∧
    (∀ l : List (String × GeoAttempt),
      ((∀ p ∈ l, ∀ r, p.2 ≠ GeoAttempt.found r) → geocodeLoop l = none) ∧
      (∀ l1 name r l2, l = l1 ++ (name, GeoAttempt.found r) :: l2 →
        (∀ p ∈ l1, ∀ r2, p.2 ≠ GeoAttempt.found r2) →
        geocodeLoop l = some { r with provider := some name })) ∧
    (∀ (ge oe : Bool) (ag ao an : GeoAttempt),
      (∀ r, ag ≠ GeoAttempt.found r) → (∀ r, ao ≠ GeoAttempt.found r) →
      (∀ r, an ≠ GeoAttempt.found r) →
      geocode ge oe ag ao an = none) := by
  refine ⟨?_, ?_, ?_⟩
  · intro gout oout d jitter s e cfg
    refine ⟨rfl, ?_, ?_, ?_, ?_, ?_⟩
    · intro hdis
      unfold getOptimalRoute
      rw [if_pos (by rw [hdis])]
    · intro hsvc hen hfail
      unfold getOptimalRoute
      rw [if_neg (by rw [hen]; simp), if_pos hsvc]
      unfold getGoogleRoute
      cases gout with
      | ok g =>
        have := hfail g rfl
        dsimp only
        rw [this]
      | httpError => rfl
      | badPayload => rfl
      | exception => rfl
    · intro hsvc hen g coords hg hdec
      subst hg
      unfold getOptimalRoute
      rw [if_neg (by rw [hen]; simp), if_pos hsvc]
      unfold getGoogleRoute
      dsimp only
      rw [hdec]
    · intro hsvc hen hfail
      unfold getOptimalRoute
      rw [if_neg (by rw [hen]; simp), if_neg (by rw [hsvc]; decide),
        if_pos hsvc]
      unfold getORSRoute
      cases oout with
      | ok o => exact absurd rfl (hfail o)
      | httpError => rfl
      | badPayload => rfl
      | exception => rfl
    · intro hsvc hen o ho
      subst ho
      unfold getOptimalRoute
      rw [if_neg (by rw [hen]; simp), if_neg (by rw [hsvc]; decide),
        if_pos hsvc]
      rfl
  · intro l
    constructor
    · exact geocodeLoop_none l
    · intro l1 name r l2 hl h
      rw [hl]
      exact geocodeLoop_first l1 name r l2 h
  · intro ge oe ag ao an hag hao han
    unfold geocode
    apply geocodeLoop_none
    intro p hp r2
    rcases List.mem_append.mp hp with hp1 | hp2
    · rcases List.mem_append.mp hp1 with hpg | hpo
      · cases ge with
        | true =>
          simp only [if_pos] at hpg
          rw [List.mem_singleton] at hpg
          subst hpg
          exact hag r2
        | false => simp at hpg
      · cases oe with
        | true =>
          simp only [if_pos] at hpo
          rw [List.mem_singleton] at hpo
          subst hpo
          exact hao r2
        | false => simp at hpo
    · rw [List.mem_singleton] at hp2
      subst hp2
      exact han r2

/-- C1 witness: a failed Google routing attempt is recovered into a
simulated route, and a geocode in which all providers fail yields
`None`. -/
theorem C1_witness :
    getOptimalRoute ⟨"google", true⟩ Outcome.exception Outcome.exception 1
        (fun _ => (0, 0)) ((0 : ℚ), (0 : ℚ)) (1, 1) =
      getSimulatedRoute ((0 : ℚ), (0 : ℚ)) (1, 1) 1 (fun _ => (0, 0)) ∧
    geocode true true GeoAttempt.raised GeoAttempt.notFound
        GeoAttempt.notFound = none := by
  constructor
  · exact (C1_amended_fallback.1 Outcome.exception Outcome.exception 1
      (fun _ => (0, 0)) (0, 0) (1, 1) ⟨"google", true⟩).2.2.1 rfl rfl
      (fun g hg => by cases hg)
  · exact C1_amended_fallback.2.2 true true GeoAttempt.raised
      GeoAttempt.notFound GeoAttempt.notFound
      (fun r h => by cases h) (fun r h => by cases h) (fun r h => by cases h)

theorem findLoop_calls (f : Coord → Route) :
    ∀ (rs : List Coord) (i : ℕ) (best : Option (ℕ × Coord × Route)),
      (findLoop f rs i best).2 = rs := by
  intro rs
  induction rs with
  | nil => intro i best; rfl
  | cons r rest ih =>
    intro i best
    simp only [findLoop]
    rw [ih]

theorem findLoop_min (f : Coord → Route) :
    ∀ (rs : List Coord) (i : ℕ) (b0 : ℕ × Coord × Route),
      ∃ res, (findLoop f rs i (some b0)).1 = some res ∧
        ((res = b0 ∧ ∀ j (hj : j < rs.length),
            b0.2.2.distance ≤ (f rs[j]).distance) ∨
         (∃ k, ∃ hk : k < rs.length,
            res = (i + k, rs[k], f rs[k]) ∧
            (f rs[k]).distance < b0.2.2.distance ∧
            (∀ j (hj : j < rs.length),
              (f rs[k]).distance ≤ (f rs[j]).distance) ∧
            (∀ j (hj : j < rs.length), j < k →
              (f rs[k]).distance < (f rs[j]).distance))) := by
  intro rs
  induction rs with
  | nil =>
    intro i b0
    exact ⟨b0, rfl, Or.inl ⟨rfl, fun j hj => absurd hj (by simp)⟩⟩
  | cons r rest ih =>
    intro i b0
    by_cases hcmp : (f r).distance < b0.2.2.distance
    · obtain ⟨res, hres, hcase⟩ := ih (i + 1) (i, r, f r)
      refine ⟨res, ?_, ?_⟩
      · simp only [findLoop, hcmp, if_pos]
        exact hres
      · rcases hcase with ⟨hres0, hmin⟩ | ⟨k, hk, hresk, hlt, hmin, hstrict⟩
        · refine Or.inr ⟨0, by simp, by simpa using hres0, by simpa using hcmp,
            ?_, ?_⟩
          · intro j hj
            cases j with
            | zero => simp
            | succ j2 =>
              simp only [List.getElem_cons_succ, List.getElem_cons_zero]
              exact hmin j2 (by simpa using Nat.lt_of_succ_lt_succ hj)
          · intro j hj hj0
            exact absurd hj0 (Nat.not_lt_zero j)
        · refine Or.inr ⟨k + 1, by simp only [List.length_cons]; omega,
            ?_, ?_, ?_, ?_⟩
          · rw [hresk]
            simp only [List.getElem_cons_succ]
            have hidx : i + 1 + k = i + (k + 1) := by omega
            rw [hidx]
          · simp only [List.getElem_cons_succ]
            exact lt_trans hlt hcmp
          · intro j hj
            cases j with
            | zero =>
              simp only [List.getElem_cons_succ, List.getElem_cons_zero]
              exact le_of_lt hlt
            | succ j2 =>
              simp only [List.getElem_cons_succ]
              exact hmin j2 (by simpa using Nat.lt_of_succ_lt_succ hj)
          · intro j hj hjk
            cases j with
            | zero =>
              simp only [List.getElem_cons_succ, List.getElem_cons_zero]
              exact hlt
            | succ j2 =>
              simp only [List.getElem_cons_succ]
              exact hstrict j2 (by simpa using Nat.lt_of_succ_lt_succ hj)
                (Nat.lt_of_succ_lt_succ hjk)
    · obtain ⟨res, hres, hcase⟩ := ih (i + 1) b0
      refine ⟨res, ?_, ?_⟩
      · simp only [findLoop, hcmp, if_neg]
        exact hres
      · rcases hcase with ⟨hres0, hmin⟩ | ⟨k, hk, hresk, hlt, hmin, hstrict⟩
        · refine Or.inl ⟨hres0, ?_⟩
          intro j hj
          cases j with
          | zero =>
            simp only [List.getElem_cons_zero]
            exact le_of_not_lt hcmp
          | succ j2 =>
            simp only [List.getElem_cons_succ]
            exact hmin j2 (by simpa using Nat.lt_of_succ_lt_succ hj)
        · refine Or.inr ⟨k + 1, by simp only [List.length_cons]; omega,
            ?_, ?_, ?_, ?_⟩
          · rw [hresk]
            simp only [List.getElem_cons_succ]
            have hidx : i + 1 + k = i + (k + 1) := by omega
            rw [hidx]
          · simp only [List.getElem_cons_succ]
            exact hlt
          · intro j hj
            cases j with
            | zero =>
              simp only [List.getElem_cons_succ, List.getElem_cons_zero]
              exact le_of_lt (lt_of_lt_of_le hlt (le_of_not_lt hcmp))
            | succ j2 =>
              simp only [List.getElem_cons_succ]
              exact hmin j2 (by simpa using Nat.lt_of_succ_lt_succ hj)
          · intro j hj hjk
            cases j with
            | zero =>
              simp only [List.getElem_cons_succ, List.getElem_cons_zero]
              exact lt_of_lt_of_le hlt (le_of_not_lt hcmp)
            | succ j2 =>
              simp only [List.getElem_cons_succ]
              exact hstrict j2 (by simpa using Nat.lt_of_succ_lt_succ hj)
                (Nat.lt_of_succ_lt_succ hjk)

theorem findLoop_cons_spec (f : Coord → Route) (r : Coord) (rest : List Coord) :
    ∃ res, (findLoop f (r :: rest) 0 none).1 = some res ∧
      ∃ hk : res.1 < (r :: rest).length,
        res.2.1 = (r :: rest)[res.1] ∧
        res.2.2 = f ((r :: rest)[res.1]) ∧
        (∀ j (hj : j < (r :: rest).length),
          res.2.2.distance ≤ (f (r :: rest)[j]).distance) ∧
        (∀ j (hj : j < (r :: rest).length), j < res.1 →
          res.2.2.distance < (f (r :: rest)[j]).distance) := by
  obtain ⟨res, hres, hcase⟩ := findLoop_min f rest 1 (0, r, f r)
  refine ⟨res, ?_, ?_⟩
  · simp only [findLoop]
    exact hres
  · rcases hcase with ⟨hres0, hmin⟩ | ⟨k, hk, hresk, hlt, hmin, hstrict⟩
    · subst hres0
      refine ⟨by simp, by simp, by simp, ?_, ?_⟩
      · intro j hj
        cases j with
        | zero => simp
        | succ j2 =>
          simp only [List.getElem_cons_succ]
          exact hmin j2 (Nat.lt_of_succ_lt_succ hj)
      · intro j hj hj0
        exact absurd hj0 (Nat.not_lt_zero j)
    · subst hresk
      have hidx : 1 + k = k + 1 := by omega
      refine ⟨by simp only [List.length_cons]; omega,
        by simp only [hidx, List.getElem_cons_succ],
        by simp only [hidx, List.getElem_cons_succ], ?_, ?_⟩
      · intro j hj
        cases j with
        | zero =>
          simp only [List.getElem_cons_succ, List.getElem_cons_zero]
          exact le_of_lt hlt
        | succ j2 =>
          simp only [List.getElem_cons_succ]
          exact hmin j2 (Nat.lt_of_succ_lt_succ hj)
      · intro j hj hjk
        cases j with
        | zero =>
          simp only [List.getElem_cons_succ, List.getElem_cons_zero]
          exact hlt
        | succ j2 =>
          simp only [List.getElem_cons_succ]
          exact hstrict j2 (Nat.lt_of_succ_lt_succ hj)
            (by omega)

/-- C6: on a non-empty responder list, `find_nearest_responder`
requests one route per responder in list order, and returns the
record of the responder whose resolved route distance is minimal
(ties keeping the first-encountered minimum, because the comparison is
strict less-than), carrying its index, coordinates, distance,
duration, full route and computed ETA. -/
theorem C6_findNearestResponder (getRoute : Coord → Coord → Route)
    (emergency : Coord) (now : ℚ) (rs : List Coord) (hne : rs ≠ []) :
    (findNearestResponder getRoute emergency now rs).2 = rs ∧
    ∃ info : NearestInfo,
      (findNearestResponder getRoute emergency now rs).1 = some info ∧
      ∃ hk : info.responderId < rs.length,
        info.coordinates = rs[info.responderId] ∧
        info.route = getRoute rs[info.responderId] emergency ∧
        info.distance = (getRoute rs[info.responderId] emergency).distance ∧
        info.duration = (getRoute rs[info.responderId] emergency).duration ∧
        info.eta = calculateEta info.route now ∧
        (∀ j (hj : j < rs.length),
          info.distance ≤ (getRoute rs[j] emergency).distance) ∧
        (∀ j (hj : j < rs.length), j < info.responderId →
          info.distance < (getRoute rs[j] emergency).distance) := by
  constructor
  · unfold findNearestResponder
    exact findLoop_calls _ rs 0 none
  · cases rs with
    | nil => exact absurd rfl hne
    | cons r rest =>
      obtain ⟨res, hres, hk, hco, hro, hmin, hstrict⟩ :=
        findLoop_cons_spec (fun c => getRoute c emergency) r rest
      refine ⟨{ responderId := res.1, coordinates := res.2.1
                distance := res.2.2.distance, duration := res.2.2.duration
                route := res.2.2, eta := calculateEta res.2.2 now }, ?_, ?_⟩
      · unfold findNearestResponder
        dsimp only
        rw [hres]
        rfl
      · refine ⟨hk, by simp only []; exact hco, by simp only []; exact hro,
          ?_, ?_, rfl, ?_, ?_⟩
        · simp only [hro]
        · simp only [hro]
        · intro j hj
          exact hmin j hj
        · intro j hj hjk
          exact hstrict j hj hjk

/-- C6 witness: three responders whose simulated route distances are
ordered 5, 2, 8 straight-line kilometers; the middle responder wins. -/
theorem C6_witness :
    (findNearestResponder
        (fun c e => getSimulatedRoute c e c.1 (fun _ => (0, 0)))
        ((0 : ℚ), (0 : ℚ)) 0 [(5, 0), (2, 0), (8, 0)]).2 =
      [(5, 0), (2, 0), (8, 0)] ∧
    ∃ info : NearestInfo,
      (findNearestResponder
        (fun c e => getSimulatedRoute c e c.1 (fun _ => (0, 0)))
        ((0 : ℚ), (0 : ℚ)) 0 [(5, 0), (2, 0), (8, 0)]).1 = some info := by
  have h := C6_findNearestResponder
    (fun c e => getSimulatedRoute c e c.1 (fun _ => (0, 0)))
    ((0 : ℚ), (0 : ℚ)) 0 [(5, 0), (2, 0), (8, 0)] (by simp)
  exact ⟨h.1, h.2.elim fun info hinfo => ⟨info, hinfo.1⟩⟩

end SERP
